import Mathlib

/-!
Verification of the grpc test-infra load-test operator and runner.

This development shallowly embeds the Go source of the repository:
Kubernetes string-keyed maps become association lists (with lookup,
insert, delete and increment operations matching Go map semantics),
pointers that may be nil become Option, times and durations become
integers counting seconds, and the controller fragments under scrutiny
become pure Lean functions over these data.  A returned none marks an
execution on which the Go code dereferences a nil pointer (a runtime
panic).
-/

namespace GrpcTestInfra

/-! ## Association lists standing for Go string-keyed maps -/

/-- Lookup in an association list: the value stored at the first matching
key, mirroring a Go map read of a present key (Go maps have unique keys,
an invariant our operations preserve). -/
def lookupA {α : Type} : List (String × α) → String → Option α
  | [], _ => none
  | (k, v) :: rest, key => if k = key then some v else lookupA rest key

/-- Lookup with a default, mirroring a Go map read where an absent key
yields the zero value. -/
def lookupD {α : Type} (m : List (String × α)) (key : String) (dflt : α) : α :=
  (lookupA m key).getD dflt

/-- Go map assignment m[k] = v: replace the value under an existing key,
otherwise append a fresh binding. -/
def mapInsert {α : Type} (m : List (String × α)) (key : String) (v : α) : List (String × α) :=
  if (lookupA m key).isSome then
    m.map (fun p => if p.1 = key then (key, v) else p)
  else
    m ++ [(key, v)]

/-- Go delete(m, k). -/
def mapDelete {α : Type} (m : List (String × α)) (key : String) : List (String × α) :=
  m.filter (fun p => p.1 ≠ key)

/-- Go m[k] += d where an absent key counts as zero. -/
def mapAdd (m : List (String × Int)) (key : String) (d : Int) : List (String × Int) :=
  mapInsert m key (lookupD m key 0 + d)

theorem lookupA_nil {α : Type} (key : String) : lookupA ([] : List (String × α)) key = none := rfl

theorem lookupA_cons {α : Type} (k key : String) (v : α) (rest : List (String × α)) :
    lookupA ((k, v) :: rest) key = if k = key then some v else lookupA rest key := rfl

theorem lookupA_append {α : Type} (l₁ l₂ : List (String × α)) (key : String) :
    lookupA (l₁ ++ l₂) key = ((lookupA l₁ key).orElse (fun _ => lookupA l₂ key)) := by
  induction l₁ with
  | nil => simp [lookupA]
  | cons p rest ih =>
      obtain ⟨k, v⟩ := p
      by_cases h : k = key <;> simp [lookupA, h, ih]

theorem lookupA_map_replace {α : Type} (m : List (String × α)) (key : String) (v : α) :
    lookupA (m.map (fun p => if p.1 = key then (key, v) else p)) key
      = (lookupA m key).map (fun _ => v) := by
  induction m with
  | nil => rfl
  | cons p rest ih =>
      obtain ⟨k, w⟩ := p
      by_cases hk : k = key
      · simp only [List.map, if_pos hk]
        simp [lookupA, hk]
      · simp only [List.map, if_neg hk]
        simp [lookupA, hk, ih]

theorem lookupA_map_replace_ne {α : Type} (m : List (String × α)) (key key' : String) (v : α)
    (h : key ≠ key') :
    lookupA (m.map (fun p => if p.1 = key then (key, v) else p)) key' = lookupA m key' := by
  induction m with
  | nil => rfl
  | cons p rest ih =>
      obtain ⟨k, w⟩ := p
      by_cases hk : k = key
      · simp only [List.map, if_pos hk]
        subst hk
        simp [lookupA, h, ih]
      · simp only [List.map, if_neg hk]
        simp only [lookupA, ih]

theorem lookupA_mapInsert_self {α : Type} (m : List (String × α)) (key : String) (v : α) :
    lookupA (mapInsert m key v) key = some v := by
  unfold mapInsert
  by_cases h : (lookupA m key).isSome
  · rw [if_pos h, lookupA_map_replace]
    rcases ho : lookupA m key with _ | w
    · rw [ho] at h; simp at h
    · rfl
  · rw [if_neg h, lookupA_append]
    rcases ho : lookupA m key with _ | w
    · simp [lookupA, Option.orElse]
    · rw [ho] at h; simp at h

theorem lookupA_mapInsert_ne {α : Type} (m : List (String × α)) (key key' : String) (v : α)
    (h : key ≠ key') : lookupA (mapInsert m key v) key' = lookupA m key' := by
  unfold mapInsert
  by_cases hs : (lookupA m key).isSome
  · rw [if_pos hs, lookupA_map_replace_ne m key key' v h]
  · rw [if_neg hs, lookupA_append]
    rcases ho : lookupA m key' with _ | w
    · simp [lookupA, Option.orElse, fun hh : key = key' => h hh]
    · simp [ho, Option.orElse]

theorem lookupA_mapDelete {α : Type} (m : List (String × α)) (key key2 : String) :
    lookupA (mapDelete m key) key2 = if key2 = key then none else lookupA m key2 := by
  induction m with
  | nil => simp [mapDelete, lookupA]
  | cons p rest ih =>
      obtain ⟨k, v⟩ := p
      simp only [mapDelete, List.filter_cons] at ih ⊢
      by_cases hk : k = key
      · subst hk
        by_cases hk2 : key2 = k
        · subst hk2
          simpa [lookupA] using ih
        · have hne : ¬ k = key2 := fun hh => hk2 hh.symm
          simpa [lookupA, hk2, hne] using ih
      · by_cases hkk : k = key2
        · have hne : ¬ key2 = key := fun hh => hk (hkk.trans hh)
          simp [lookupA, hkk, hne]
        · simpa [lookupA, hk, hkk] using ih

/-! ## Shared data model

Label keys and role values written and read by the system, from the
spec section 6 (the config package defining them is referenced by the
source but not part of it). -/

/-- Modelled from the spec: the pool label key on nodes and pods. -/
def PoolLabel : String := "pool"

/-- Modelled from the spec: label carrying the owning test name. -/
def LoadTestLabel : String := "loadtest"

/-- Modelled from the spec: label carrying the component role. -/
def RoleLabel : String := "loadtest-role"

/-- Modelled from the spec: label carrying the component name. -/
def ComponentNameLabel : String := "loadtest-component"

/-- Modelled from the spec: role value for clients. -/
def ClientRole : String := "client"

/-- Modelled from the spec: role value for drivers. -/
def DriverRole : String := "driver"

/-- Modelled from the spec: role value for servers. -/
def ServerRole : String := "server"

/-- Modelled from the spec: placeholder node-count key for the cluster
default client pool. -/
def DefaultClientPool : String := "default-client-pool"

/-- Modelled from the spec: placeholder node-count key for the cluster
default driver pool. -/
def DefaultDriverPool : String := "default-driver-pool"

/-- Modelled from the spec: placeholder node-count key for the cluster
default server pool. -/
def DefaultServerPool : String := "default-server-pool"

/-- Modelled from the spec: the terminal reason tag PoolError. -/
def PoolErrorReason : String := "PoolError"

/-- Modelled from the spec: the states of a LoadTest status. -/
inductive LoadTestState where
  | unknown
  | pending
  | provisioning
  | running
  | succeeded
  | errored
  deriving DecidableEq, Repr

/-- Modelled from the spec: a state is terminal exactly when it is
succeeded or errored (glossary entry for terminal state; the IsTerminated
method itself is referenced by the source but not part of it). -/
def LoadTestState.IsTerminated : LoadTestState → Bool
  | .succeeded => true
  | .errored => true
  | _ => false

/-- Labels of a Kubernetes object.  A none stands for a nil Go map
(distinguished from an empty one by an explicit nil check in the
source). -/
abbrev Labels := List (String × String)

/-- A cluster node, as consumed by CurrentClusterInfo: only its labels
matter. -/
structure KNode where
  name : String
  labels : Labels
  deriving Repr

/-- Pod phases relevant to availability accounting. -/
inductive PodPhase where
  | pending
  | running
  | succeeded
  | failed
  | unknown
  deriving DecidableEq, Repr

/-- A pod, as consumed by CurrentClusterInfo and checkMissingPods:
labels (possibly a nil map) and a status phase. -/
structure KPod where
  labels : Option Labels
  phase : PodPhase
  deriving Repr

/-- The default-pool label names, one per role (config.PoolLabelMap). -/
structure PoolLabelMap where
  client : String
  driver : String
  server : String
  deriving Repr

/-- ClusterInfo: capacity and availability per pool, and the default
pool per role. -/
structure ClusterInfo where
  capacity : List (String × Int)
  availability : List (String × Int)
  defaultPools : List (String × String)
  deriving Repr

/-- CapacityForPool: the map read with its ok Bool, as the Go method
returns it. -/
def CapacityForPool (ci : ClusterInfo) (pool : String) : Int × Bool :=
  match lookupA ci.capacity pool with
  | some c => (c, true)
  | none => (0, false)

/-- AvailabilityForPool: the map read with its ok Bool, as the Go method
returns it. -/
def AvailabilityForPool (ci : ClusterInfo) (pool : String) : Int × Bool :=
  match lookupA ci.availability pool with
  | some a => (a, true)
  | none => (0, false)

/-- DefaultPoolForRole: the map read with its ok Bool, as the Go method
returns it (a missing key yields the empty string). -/
def DefaultPoolForRole (ci : ClusterInfo) (role : String) : String × Bool :=
  match lookupA ci.defaultPools role with
  | some p => (p, true)
  | none => ("", false)

/-! ## CurrentClusterInfo (controllers, loadtest controller file)

The Go function iterates over nodes filling capacity and default pools,
then computes a local poolAvailabilities map from the pods — and returns
the info without ever storing that local map into info.availability.
The embedding mirrors this exactly.  The logger argument becomes the
Bool hasLog: the source skips a node or pod lacking a pool label only
when the logger is non-nil. -/

/-- One role's default-pool check for one node: if no default pool is
recorded for the role yet and the node bears the role's default-pool
label, record this node's pool under the role. -/
def roleCheck (roleKey labelKey : String) (node : KNode) (pool : String)
    (dp : List (String × String)) : List (String × String) :=
  if (lookupA dp roleKey).isNone then
    (if (lookupA node.labels labelKey).isSome then mapInsert dp roleKey pool else dp)
  else dp

/-- The default-pool checks performed for one node (the body guarded by
defaultPoolLabels being non-nil), in source order: client, driver,
server. -/
def defaultsCheck (d : PoolLabelMap) (node : KNode) (pool : String)
    (dp : List (String × String)) : List (String × String) :=
  roleCheck ServerRole d.server node pool
    (roleCheck DriverRole d.driver node pool
      (roleCheck ClientRole d.client node pool dp))

/-- The final step for one node: the capacity increment for its pool. -/
def capacityBump (pool : String) (info : ClusterInfo) : ClusterInfo :=
  { info with capacity := mapAdd info.capacity pool 1 }

/-- Processing of one node once its pool string is in hand: the
default-pool checks and the capacity zero-initialisation (both guarded
by defaultPoolLabels being non-nil), then the capacity increment. -/
def processNodeBody (dpl : Option PoolLabelMap) (node : KNode) (pool : String)
    (info : ClusterInfo) : ClusterInfo :=
  capacityBump pool
    (match dpl with
     | none => info
     | some d =>
         { info with
             defaultPools := defaultsCheck d node pool info.defaultPools,
             capacity :=
               if (lookupA info.capacity pool).isNone then mapInsert info.capacity pool 0
               else info.capacity })

/-- Processing of one node: a node without a pool label is logged and
skipped when a logger is present; with a nil logger it is processed with
the zero-value pool string. -/
def processNode (dpl : Option PoolLabelMap) (hasLog : Bool) (info : ClusterInfo)
    (node : KNode) : ClusterInfo :=
  match lookupA node.labels PoolLabel with
  | none => if hasLog then info else processNodeBody dpl node "" info
  | some pool => processNodeBody dpl node pool info

/-- Processing of one pod in the availability computation: a pod whose
phase is neither succeeded nor failed decrements the count for its pool
label; a pod without a pool label is skipped when a logger is present. -/
def podAvailStep (hasLog : Bool) (m : List (String × Int)) (pod : KPod) :
    List (String × Int) :=
  match (match pod.labels with | none => none | some ls => lookupA ls PoolLabel) with
  | none =>
      if hasLog then m
      else if pod.phase ≠ PodPhase.succeeded ∧ pod.phase ≠ PodPhase.failed then
        mapAdd m "" (-1)
      else m
  | some pool =>
      if pod.phase ≠ PodPhase.succeeded ∧ pod.phase ≠ PodPhase.failed then
        mapAdd m pool (-1)
      else m

/-- The local poolAvailabilities map the source computes from capacity
and the pod list.  The source never assigns it to info.availability. -/
def poolAvailabilitiesComputed (nodes : List KNode) (pods : List KPod)
    (dpl : Option PoolLabelMap) (hasLog : Bool) : List (String × Int) :=
  pods.foldl (podAvailStep hasLog)
    (nodes.foldl (processNode dpl hasLog) ⟨[], [], []⟩).capacity

/-- CurrentClusterInfo.  The let binding of the computed availabilities
mirrors the dead local variable of the source: the returned info keeps
its initial empty availability map. -/
def CurrentClusterInfo (nodes : List KNode) (pods : List KPod)
    (dpl : Option PoolLabelMap) (hasLog : Bool) : ClusterInfo :=
  let info := nodes.foldl (processNode dpl hasLog) ⟨[], [], []⟩
  let _poolAvailabilities := poolAvailabilitiesComputed nodes pods dpl hasLog
  info

theorem processNode_availability (dpl : Option PoolLabelMap) (hasLog : Bool)
    (info : ClusterInfo) (node : KNode) :
    (processNode dpl hasLog info node).availability = info.availability := by
  unfold processNode processNodeBody capacityBump
  cases lookupA node.labels PoolLabel <;> cases dpl <;> cases hasLog <;> rfl

theorem foldl_processNode_availability (dpl : Option PoolLabelMap) (hasLog : Bool)
    (nodes : List KNode) (acc : ClusterInfo) :
    (nodes.foldl (processNode dpl hasLog) acc).availability = acc.availability := by
  induction nodes generalizing acc with
  | nil => rfl
  | cons n rest ih => rw [List.foldl_cons, ih, processNode_availability]

/-! ## Claim C1 -/

/-- A default-pool label bundle with the typical names from the spec. -/
def dpl1 : PoolLabelMap := ⟨DefaultClientPool, DefaultDriverPool, DefaultServerPool⟩

/-- A node belonging to pool-1. -/
def node1 : KNode := ⟨"node-1", [(PoolLabel, "pool-1")]⟩

/-- Claim C1, code bug: CurrentClusterInfo computes the per-pool
availabilities into a local map but never stores them, so the returned
availability map is always empty and AvailabilityForPool returns
(0, false) for every pool.  On a cluster with one pool-1 node and no
pods the claim expects AvailabilityForPool to return (1, true); the code
returns (0, false) although capacity is (1, true) and the dropped local
computation indeed holds 1 for pool-1. -/
theorem c1_availability_never_populated :
    (∀ nodes pods dpl hasLog, (CurrentClusterInfo nodes pods dpl hasLog).availability = [])
    ∧ AvailabilityForPool (CurrentClusterInfo [node1] [] (some dpl1) true) "pool-1" = (0, false)
    ∧ CapacityForPool (CurrentClusterInfo [node1] [] (some dpl1) true) "pool-1" = (1, true)
    ∧ lookupA (poolAvailabilitiesComputed [node1] [] (some dpl1) true) "pool-1" = some 1 := by
  refine ⟨?_, ?_, ?_, ?_⟩
  · intro nodes pods dpl hasLog
    exact foldl_processNode_availability dpl hasLog nodes _
  · rfl
  · rfl
  · rfl

/-! ## Claim C5 -/

theorem currentClusterInfo_eq_fold (nodes : List KNode) (pods : List KPod)
    (dpl : Option PoolLabelMap) (hasLog : Bool) :
    CurrentClusterInfo nodes pods dpl hasLog
      = nodes.foldl (processNode dpl hasLog) ⟨[], [], []⟩ := rfl

theorem lookupA_roleCheck_self (roleKey labelKey : String) (node : KNode) (pool : String)
    (dp : List (String × String)) :
    lookupA (roleCheck roleKey labelKey node pool dp) roleKey =
      match lookupA dp roleKey with
      | some p => some p
      | none => if (lookupA node.labels labelKey).isSome then some pool else none := by
  unfold roleCheck
  cases hdp : lookupA dp roleKey
  · by_cases hl : (lookupA node.labels labelKey).isSome
    · simp [hdp, hl, lookupA_mapInsert_self]
    · simp [hdp, hl]
  · simp [hdp]

theorem lookupA_roleCheck_ne (roleKey labelKey : String) (node : KNode) (pool : String)
    (dp : List (String × String)) (rk2 : String) (h : roleKey ≠ rk2) :
    lookupA (roleCheck roleKey labelKey node pool dp) rk2 = lookupA dp rk2 := by
  unfold roleCheck
  by_cases h1 : (lookupA dp roleKey).isNone
  · by_cases h2 : (lookupA node.labels labelKey).isSome
    · simp [h1, h2, lookupA_mapInsert_ne _ _ _ _ h]
    · simp [h1, h2]
  · simp [h1]

/-- A node is eligible to set a role's default pool exactly when it
survives the pool-label skip and bears the role's default-pool label. -/
def nodeEligible (labelKey : String) (node : KNode) : Bool :=
  (lookupA node.labels PoolLabel).isSome && (lookupA node.labels labelKey).isSome

/-- The pool a node advertises (its pool label, read the Go way). -/
def nodePool (node : KNode) : String := lookupD node.labels PoolLabel ""

theorem processNode_defaultPools_client (d : PoolLabelMap) (info : ClusterInfo) (node : KNode) :
    lookupA (processNode (some d) true info node).defaultPools ClientRole =
      match lookupA info.defaultPools ClientRole with
      | some p => some p
      | none => if nodeEligible d.client node then some (nodePool node) else none := by
  unfold processNode
  cases hpl : lookupA node.labels PoolLabel with
  | none =>
      cases hdp : lookupA info.defaultPools ClientRole <;>
        simp [nodeEligible, hpl, hdp]
  | some pool =>
      show lookupA (processNodeBody (some d) node pool info).defaultPools ClientRole = _
      unfold processNodeBody capacityBump defaultsCheck
      simp only []
      rw [show ∀ i : ClusterInfo, ({ i with capacity := mapAdd i.capacity pool 1 } :
            ClusterInfo).defaultPools = i.defaultPools from fun _ => rfl]
      rw [lookupA_roleCheck_ne ServerRole d.server node pool _ ClientRole (by decide),
          lookupA_roleCheck_ne DriverRole d.driver node pool _ ClientRole (by decide),
          lookupA_roleCheck_self]
      cases hdp : lookupA info.defaultPools ClientRole <;>
        simp [nodeEligible, nodePool, lookupD, hpl, hdp]

theorem processNode_defaultPools_driver (d : PoolLabelMap) (info : ClusterInfo) (node : KNode) :
    lookupA (processNode (some d) true info node).defaultPools DriverRole =
      match lookupA info.defaultPools DriverRole with
      | some p => some p
      | none => if nodeEligible d.driver node then some (nodePool node) else none := by
  unfold processNode
  cases hpl : lookupA node.labels PoolLabel with
  | none =>
      cases hdp : lookupA info.defaultPools DriverRole <;>
        simp [nodeEligible, hpl, hdp]
  | some pool =>
      show lookupA (processNodeBody (some d) node pool info).defaultPools DriverRole = _
      unfold processNodeBody capacityBump defaultsCheck
      simp only []
      rw [show ∀ i : ClusterInfo, ({ i with capacity := mapAdd i.capacity pool 1 } :
            ClusterInfo).defaultPools = i.defaultPools from fun _ => rfl]
      rw [lookupA_roleCheck_ne ServerRole d.server node pool _ DriverRole (by decide),
          lookupA_roleCheck_self,
          lookupA_roleCheck_ne ClientRole d.client node pool _ DriverRole (by decide)]
      cases hdp : lookupA info.defaultPools DriverRole <;>
        simp [nodeEligible, nodePool, lookupD, hpl, hdp]

theorem processNode_defaultPools_server (d : PoolLabelMap) (info : ClusterInfo) (node : KNode) :
    lookupA (processNode (some d) true info node).defaultPools ServerRole =
      match lookupA info.defaultPools ServerRole with
      | some p => some p
      | none => if nodeEligible d.server node then some (nodePool node) else none := by
  unfold processNode
  cases hpl : lookupA node.labels PoolLabel with
  | none =>
      cases hdp : lookupA info.defaultPools ServerRole <;>
        simp [nodeEligible, hpl, hdp]
  | some pool =>
      show lookupA (processNodeBody (some d) node pool info).defaultPools ServerRole = _
      unfold processNodeBody capacityBump defaultsCheck
      simp only []
      rw [show ∀ i : ClusterInfo, ({ i with capacity := mapAdd i.capacity pool 1 } :
            ClusterInfo).defaultPools = i.defaultPools from fun _ => rfl]
      rw [lookupA_roleCheck_self,
          lookupA_roleCheck_ne DriverRole d.driver node pool _ ServerRole (by decide),
          lookupA_roleCheck_ne ClientRole d.client node pool _ ServerRole (by decide)]
      cases hdp : lookupA info.defaultPools ServerRole <;>
        simp [nodeEligible, nodePool, lookupD, hpl, hdp]

theorem foldl_first_char {σ : Type} (f : σ → KNode → σ) (get : σ → Option String)
    (elig : KNode → Bool) (poolOf : KNode → String)
    (hstep : ∀ s node, get (f s node) =
      match get s with
      | some p => some p
      | none => if elig node then some (poolOf node) else none) :
    ∀ (nodes : List KNode) (s : σ),
      get (nodes.foldl f s) =
        match get s with
        | some p => some p
        | none => (nodes.find? elig).map poolOf := by
  intro nodes
  induction nodes with
  | nil =>
      intro s
      cases hg : get s <;> simp [hg]
  | cons n rest ih =>
      intro s
      rw [List.foldl_cons, ih, hstep]
      cases hg : get s
      · by_cases he : elig n
        · simp [hg, List.find?_cons_of_pos _ he, he]
        · simp [hg, List.find?_cons_of_neg _ he, he]
      · simp [hg]

/-- Formalisation of the claim wording: the pool label of the first node
in the node list that bears the role's default-pool label (a missing
pool label reading as the empty string, as a Go map read does). -/
def claimedDefaultPool (nodes : List KNode) (roleLabel : String) : Option String :=
  (nodes.find? (fun n => (lookupA n.labels roleLabel).isSome)).map
    (fun n => lookupD n.labels PoolLabel "")

/-- A node bearing the client default-pool label but no pool label. -/
def nodeNoPool : KNode := ⟨"n1", [(DefaultClientPool, "true")]⟩

/-- A node in pool p2 bearing the client default-pool label. -/
def nodeP2 : KNode := ⟨"n2", [(PoolLabel, "p2"), (DefaultClientPool, "true")]⟩

/-- Claim C5, counterexample: with a logger present (as in Reconcile),
a node that bears the client default-pool label but no pool label is
skipped entirely, so the client default pool is taken from the second
node (pool p2), while the claim, reading the first bearing node, would
yield the empty string. -/
theorem c5_counterexample :
    DefaultPoolForRole (CurrentClusterInfo [nodeNoPool, nodeP2] [] (some dpl1) true) ClientRole
      = ("p2", true)
    ∧ claimedDefaultPool [nodeNoPool, nodeP2] dpl1.client = some ""
    ∧ ("p2" : String) ≠ "" := by
  refine ⟨rfl, rfl, by decide⟩

/-- Claim C5, amended: with a logger present, CurrentClusterInfo assigns
each role's default pool to be the pool label of the first node in the
list that bears both a pool label and that role's default-pool label
(nodes without a pool label being skipped); later such nodes do not
change the assignment, and for a role no surviving node advertises,
DefaultPoolForRole returns the empty string and false. -/
theorem c5_amended (d : PoolLabelMap) (nodes : List KNode) (pods : List KPod) :
    (DefaultPoolForRole (CurrentClusterInfo nodes pods (some d) true) ClientRole =
       match nodes.find? (nodeEligible d.client) with
       | some n => (nodePool n, true)
       | none => ("", false))
    ∧ (DefaultPoolForRole (CurrentClusterInfo nodes pods (some d) true) DriverRole =
       match nodes.find? (nodeEligible d.driver) with
       | some n => (nodePool n, true)
       | none => ("", false))
    ∧ (DefaultPoolForRole (CurrentClusterInfo nodes pods (some d) true) ServerRole =
       match nodes.find? (nodeEligible d.server) with
       | some n => (nodePool n, true)
       | none => ("", false)) := by
  rw [currentClusterInfo_eq_fold]
  refine ⟨?_, ?_, ?_⟩
  · rw [DefaultPoolForRole,
      foldl_first_char (processNode (some d) true)
        (fun i => lookupA i.defaultPools ClientRole) (nodeEligible d.client) nodePool
        (fun s node => processNode_defaultPools_client d s node) nodes ⟨[], [], []⟩]
    cases nodes.find? (nodeEligible d.client) <;> rfl
  · rw [DefaultPoolForRole,
      foldl_first_char (processNode (some d) true)
        (fun i => lookupA i.defaultPools DriverRole) (nodeEligible d.driver) nodePool
        (fun s node => processNode_defaultPools_driver d s node) nodes ⟨[], [], []⟩]
    cases nodes.find? (nodeEligible d.driver) <;> rfl
  · rw [DefaultPoolForRole,
      foldl_first_char (processNode (some d) true)
        (fun i => lookupA i.defaultPools ServerRole) (nodeEligible d.server) nodePool
        (fun s node => processNode_defaultPools_server d s node) nodes ⟨[], [], []⟩]
    cases nodes.find? (nodeEligible d.server) <;> rfl

/-! ## Claim C7: adjustAvailabilityForDefaults -/

/-- A requested adjustment: the placeholder node-count key and the role
whose cluster default pool should absorb it. -/
structure DefaultAdjustment where
  defaultPoolKey : String
  role : String
  deriving Repr

/-- adjustAvailabilityForDefaults: for each adjustment in order, look up
the role's default pool and the placeholder count; on either lookup
failing the source returns from the whole function, otherwise it adds
the count to the concrete pool and deletes the placeholder key. -/
def adjustAvailabilityForDefaults (info : ClusterInfo) (nodeCountByPool : List (String × Int)) :
    List DefaultAdjustment → List (String × Int)
  | [] => nodeCountByPool
  | adj :: rest =>
      match DefaultPoolForRole info adj.role with
      | (_, false) => nodeCountByPool
      | (defaultPoolForRole, true) =>
          match lookupA nodeCountByPool adj.defaultPoolKey with
          | none => nodeCountByPool
          | some defaultPoolNodeCount =>
              adjustAvailabilityForDefaults info
                (mapDelete (mapAdd nodeCountByPool defaultPoolForRole defaultPoolNodeCount)
                  adj.defaultPoolKey)
                rest

/-- Formalisation of the claim wording: each role adjustment handled
independently, a failing role being skipped rather than aborting the
remaining roles. -/
def adjustIndependently (info : ClusterInfo) (nodeCountByPool : List (String × Int)) :
    List DefaultAdjustment → List (String × Int)
  | [] => nodeCountByPool
  | adj :: rest =>
      match DefaultPoolForRole info adj.role with
      | (_, false) => adjustIndependently info nodeCountByPool rest
      | (defaultPoolForRole, true) =>
          match lookupA nodeCountByPool adj.defaultPoolKey with
          | none => adjustIndependently info nodeCountByPool rest
          | some defaultPoolNodeCount =>
              adjustIndependently info
                (mapDelete (mapAdd nodeCountByPool defaultPoolForRole defaultPoolNodeCount)
                  adj.defaultPoolKey)
                rest

/-- The adjustment list passed by Reconcile, in source order. -/
def reconcileAdjustments : List DefaultAdjustment :=
  [⟨DefaultClientPool, ClientRole⟩, ⟨DefaultDriverPool, DriverRole⟩,
   ⟨DefaultServerPool, ServerRole⟩]

/-- A cluster that has a default pool for servers only. -/
def infoServerOnly : ClusterInfo := ⟨[], [], [(ServerRole, "ps")]⟩

/-- Placeholder counts for both the client and the server default
pools. -/
def countsC7 : List (String × Int) := [(DefaultClientPool, 1), (DefaultServerPool, 2)]

/-- Claim C7, counterexample: the snapshot has a default pool for
servers and the missing set has a server placeholder count, yet because
the earlier client adjustment finds no client default pool the source
returns early and the server placeholder survives untouched — the
adjustments are not independent.  The independent reading of the claim
would delete the server placeholder. -/
theorem c7_counterexample :
    adjustAvailabilityForDefaults infoServerOnly countsC7 reconcileAdjustments = countsC7
    ∧ DefaultPoolForRole infoServerOnly ServerRole = ("ps", true)
    ∧ lookupA (adjustAvailabilityForDefaults infoServerOnly countsC7 reconcileAdjustments)
        DefaultServerPool = some 2
    ∧ lookupA (adjustIndependently infoServerOnly countsC7 reconcileAdjustments)
        DefaultServerPool = none := by
  exact ⟨rfl, rfl, rfl, rfl⟩

/-- Claim C7, amended: adjustments are processed in list order; the
first adjustment whose role has no default pool in the snapshot, or
whose placeholder key is absent from the node-count map, stops all
processing (the source returns from the function), leaving that
adjustment and every later one unapplied; an adjustment processed
before that point adds its placeholder count to the role's concrete
default pool and deletes the placeholder key. -/
theorem c7_amended (info : ClusterInfo) (m : List (String × Int)) (adj : DefaultAdjustment)
    (rest : List DefaultAdjustment) :
    ((DefaultPoolForRole info adj.role).2 = false →
       adjustAvailabilityForDefaults info m (adj :: rest) = m)
    ∧ (∀ p, DefaultPoolForRole info adj.role = (p, true) →
       lookupA m adj.defaultPoolKey = none →
       adjustAvailabilityForDefaults info m (adj :: rest) = m)
    ∧ (∀ p n, DefaultPoolForRole info adj.role = (p, true) →
       lookupA m adj.defaultPoolKey = some n →
       adjustAvailabilityForDefaults info m (adj :: rest)
         = adjustAvailabilityForDefaults info
             (mapDelete (mapAdd m p n) adj.defaultPoolKey) rest) := by
  refine ⟨?_, ?_, ?_⟩
  · intro hfail
    rcases hdp : DefaultPoolForRole info adj.role with ⟨p, b⟩
    rw [hdp] at hfail
    simp at hfail
    subst hfail
    simp [adjustAvailabilityForDefaults, hdp]
  · intro p hdp hnone
    simp [adjustAvailabilityForDefaults, hdp, hnone]
  · intro p n hdp hsome
    simp [adjustAvailabilityForDefaults, hdp, hsome]

/-- Claim C7 witness: the amended theorem applied at the counterexample
input, where the client role has no default pool, reproduces the
early return. -/
theorem c7_amended_witness :
    adjustAvailabilityForDefaults infoServerOnly countsC7 reconcileAdjustments = countsC7 :=
  (c7_amended infoServerOnly countsC7 ⟨DefaultClientPool, ClientRole⟩
    [⟨DefaultDriverPool, DriverRole⟩, ⟨DefaultServerPool, ServerRole⟩]).1 rfl

/-! ## Claim C2: the per-pool admission check in Reconcile -/

/-- A status update written by the admission check. -/
structure StatusUpdate where
  state : LoadTestState
  reason : String
  message : String
  deriving DecidableEq, Repr

/-- Outcome of the missing-pod scheduling fragment of Reconcile: the
status update it wrote (if any), the Requeue flag and RequeueAfter
seconds of the returned result, and the pods it went on to create. -/
structure ScheduleResult where
  statusSet : Option StatusUpdate
  requeue : Bool
  requeueAfterSeconds : Int
  createdPods : List String
  deriving DecidableEq, Repr

/-- The status written when a requested pool does not exist. -/
def mkPoolErrorStatus (pool : String) : StatusUpdate :=
  ⟨LoadTestState.errored, PoolErrorReason,
    "requested pool \"" ++ pool ++ "\" does not exist"⟩

/-- The admission loop of Reconcile over the per-pool required node
counts, followed by pod creation: a pool missing from the availability
map sets the test errored with reason PoolError and returns without
requeue; a pool whose requirement exceeds availability returns with a
five-second requeue; only when every pool passes does the fragment go
on to create the missing pods (creation itself modelled as
succeeding). -/
def scheduleMissingPods (info : ClusterInfo) (counts : List (String × Int))
    (toCreate : List String) : ScheduleResult :=
  match counts with
  | [] => ⟨none, false, 0, toCreate⟩
  | (pool, requiredNodeCount) :: rest =>
      match AvailabilityForPool info pool with
      | (_, false) => ⟨some (mkPoolErrorStatus pool), false, 0, []⟩
      | (availableNodeCount, true) =>
          if requiredNodeCount > availableNodeCount then ⟨none, false, 5, []⟩
          else scheduleMissingPods info rest toCreate

/-- A pool passes admission when it is present in the availability map
with at least the required count. -/
def poolPasses (info : ClusterInfo) (pool : String) (n : Int) : Bool :=
  (AvailabilityForPool info pool).2 && decide (n ≤ (AvailabilityForPool info pool).1)

/-- Claim C2: during a reconcile with missing pods, a pool of the
required-node-count map with no availability entry (all pools checked
before it passing) sets the status errored with reason PoolError and
returns without requeue and with no pod created; a pool whose required
count exceeds its availability yields a five-second requeue with no pod
created; and the missing pods are created exactly when every pool
passes. -/
theorem c2_admission_all_or_nothing (info : ClusterInfo) (toCreate : List String) :
    (∀ pre pool n rest,
       (∀ q m, (q, m) ∈ pre → poolPasses info q m = true) →
       (AvailabilityForPool info pool).2 = false →
       scheduleMissingPods info (pre ++ (pool, n) :: rest) toCreate
         = ⟨some (mkPoolErrorStatus pool), false, 0, []⟩)
    ∧ (∀ pre pool n rest a,
       (∀ q m, (q, m) ∈ pre → poolPasses info q m = true) →
       AvailabilityForPool info pool = (a, true) → n > a →
       scheduleMissingPods info (pre ++ (pool, n) :: rest) toCreate
         = ⟨none, false, 5, []⟩)
    ∧ (∀ counts, (scheduleMissingPods info counts toCreate).createdPods
         = if counts.all (fun pc => poolPasses info pc.1 pc.2) then toCreate else []) := by
  refine ⟨?_, ?_, ?_⟩
  · intro pre
    induction pre with
    | nil =>
        intro pool n rest _ hfail
        rcases hav : AvailabilityForPool info pool with ⟨a, b⟩
        rw [hav] at hfail
        simp at hfail
        subst hfail
        simp [scheduleMissingPods, hav]
    | cons qm pre ih =>
        intro pool n rest hpass hfail
        obtain ⟨q, m⟩ := qm
        have hq : poolPasses info q m = true := hpass q m (List.mem_cons_self _ _)
        rcases hav : AvailabilityForPool info q with ⟨a, b⟩
        unfold poolPasses at hq
        rw [hav] at hq
        simp only [Bool.and_eq_true, decide_eq_true_eq] at hq
        obtain ⟨hb, hle⟩ := hq
        subst hb
        have hnot : ¬ m > a := not_lt.mpr hle
        simp only [List.cons_append, scheduleMissingPods, hav, if_neg hnot]
        exact ih pool n rest (fun q2 m2 h2 => hpass q2 m2 (List.mem_cons_of_mem _ h2)) hfail
  · intro pre
    induction pre with
    | nil =>
        intro pool n rest a _ hav hgt
        simp [scheduleMissingPods, hav, hgt]
    | cons qm pre ih =>
        intro pool n rest a hpass hav hgt
        obtain ⟨q, m⟩ := qm
        have hq : poolPasses info q m = true := hpass q m (List.mem_cons_self _ _)
        rcases hav2 : AvailabilityForPool info q with ⟨a2, b2⟩
        unfold poolPasses at hq
        rw [hav2] at hq
        simp only [Bool.and_eq_true, decide_eq_true_eq] at hq
        obtain ⟨hb, hle⟩ := hq
        subst hb
        have hnot : ¬ m > a2 := not_lt.mpr hle
        simp only [List.cons_append, scheduleMissingPods, hav2, if_neg hnot]
        exact ih pool n rest a (fun q2 m2 h2 => hpass q2 m2 (List.mem_cons_of_mem _ h2)) hav hgt
  · intro counts
    induction counts with
    | nil => simp [scheduleMissingPods]
    | cons pc rest ih =>
        obtain ⟨pool, n⟩ := pc
        rcases hav : AvailabilityForPool info pool with ⟨a, b⟩
        cases b
        · simp [scheduleMissingPods, hav, poolPasses]
        · by_cases hgt : n > a
          · have : ¬ n ≤ a := not_le.mpr hgt
            simp [scheduleMissingPods, hav, hgt, poolPasses, this]
          · have hle : n ≤ a := not_lt.mp hgt
            have hpp : poolPasses info pool n = true := by
              unfold poolPasses
              rw [hav]
              simp [hle]
            simp only [scheduleMissingPods, hav, if_neg hgt]
            rw [ih, List.all_cons, hpp]
            rfl

/-- A snapshot whose availability map knows pool p only. -/
def infoC2 : ClusterInfo := ⟨[("p", 3)], [("p", 1)], []⟩

/-- Claim C2 witness: requesting one node of an unknown pool q rejects
the test with PoolError, no requeue and no pod created. -/
theorem c2_witness :
    scheduleMissingPods infoC2 [("q", 1)] ["server-pod"]
      = ⟨some (mkPoolErrorStatus "q"), false, 0, []⟩ :=
  (c2_admission_all_or_nothing infoC2 ["server-pod"]).1 [] "q" 1 []
    (fun _ _ h => absurd h (List.not_mem_nil _)) rfl

/-! ## Claims C3 and C10: the terminal-state guard of Reconcile -/

/-- A LoadTest status: state, reason, message and the optional start
and stop times (seconds; nil pointers become none).  Modelled from the
spec for the fields themselves; the guard logic below is from the
source. -/
structure LoadTestStatus where
  state : LoadTestState
  reason : String
  message : String
  startTime : Option Int
  stopTime : Option Int
  deriving DecidableEq, Repr

/-- Result of the terminal-state guard at the top of Reconcile. -/
inductive TerminalGuardResult where
  /-- The guard dereferences Status.StartTime while it is nil: a Go
  runtime panic. -/
  | panicNilStartTime
  /-- The guard returned: whether delete was called, and the Requeue
  flag of the returned result.  The guard contains no update or
  updateStatus call, so neither spec nor status is ever written. -/
  | returned (deleteCalled : Bool) (requeue : Bool)
  /-- The status is not terminal: Reconcile continues past the guard. -/
  | continueReconcile
  deriving DecidableEq, Repr

/-- The terminal-state guard of Reconcile: when the status state is
terminal, compare now minus the status start time against the TTL and
delete the test if expired (a failing delete returns with requeue),
otherwise return without requeue.  Reading the start time of a status
that has none dereferences a nil pointer. -/
def reconcileTerminalGuard (status : LoadTestStatus) (ttlSeconds now : Int)
    (deleteOk : Bool) : TerminalGuardResult :=
  if status.state.IsTerminated then
    match status.startTime with
    | none => .panicNilStartTime
    | some startTime =>
        if now - startTime ≥ ttlSeconds then
          if deleteOk then .returned true false
          else .returned true true
        else .returned false false
  else .continueReconcile

/-- Claim C3: when Reconcile observes a terminal status (with a start
time present), the guard writes neither spec nor status (the returned
constructor carries no write), calls delete exactly when now minus the
start time reaches the TTL, and otherwise returns without requeue. -/
theorem c3_terminal_guard (status : LoadTestStatus) (ttlSeconds now s : Int) (deleteOk : Bool)
    (hterm : status.state = .succeeded ∨ status.state = .errored)
    (hstart : status.startTime = some s) :
    reconcileTerminalGuard status ttlSeconds now deleteOk
      = .returned (decide (now - s ≥ ttlSeconds))
          (decide (now - s ≥ ttlSeconds) && !deleteOk) := by
  have hT : status.state.IsTerminated = true := by
    rcases hterm with h | h <;> rw [h] <;> rfl
  unfold reconcileTerminalGuard
  rw [hT, if_pos rfl, hstart]
  by_cases hge : now - s ≥ ttlSeconds
  · cases deleteOk <;> simp [hge]
  · cases deleteOk <;> simp [hge]

/-- Claim C3 witness: a succeeded test started at time 0 with TTL 10,
observed at time 20, is deleted and the reconcile does not requeue. -/
theorem c3_terminal_guard_witness :
    reconcileTerminalGuard ⟨.succeeded, "", "", some 0, some 5⟩ 10 20 true
      = .returned true false := by
  simpa using c3_terminal_guard ⟨.succeeded, "", "", some 0, some 5⟩ 10 20 0 true
    (Or.inl rfl) rfl

/-- Claim C10, code bug: a terminal test whose status carries no start
time (for example one marked errored before any pod started) drives
the TTL-expiry check into a nil-pointer dereference — the guard is not
well-defined there. -/
theorem c10_nil_start_time_panic :
    (LoadTestState.errored).IsTerminated = true
    ∧ reconcileTerminalGuard ⟨.errored, PoolErrorReason, "", none, none⟩ 100 50 true
        = .panicNilStartTime := ⟨rfl, rfl⟩

/-! ## Claim C6: getRequeueTime -/

/-- The two timing fields of a LoadTest spec used by getRequeueTime. -/
structure LoadTestSpecTimes where
  timeoutSeconds : Int
  ttlSeconds : Int
  deriving DecidableEq, Repr

/-- getRequeueTime: timeout seconds on the transition to having a start
time; TTL minus observed runtime on the transition to having a stop
time; zero otherwise.  none marks the execution that dereferences a nil
StartTime while computing the runtime. -/
def getRequeueTime (spec : LoadTestSpecTimes) (updatedStatus previousStatus : LoadTestStatus) :
    Option Int :=
  if previousStatus.startTime = none ∧ updatedStatus.startTime ≠ none then
    some spec.timeoutSeconds
  else if previousStatus.stopTime = none ∧ updatedStatus.stopTime ≠ none then
    match updatedStatus.stopTime, updatedStatus.startTime with
    | some stopTime, some startTime => some (spec.ttlSeconds - (stopTime - startTime))
    | _, _ => none
  else some 0

/-- The status of a test first observed already finished: both times
appear at once. -/
def updBoth : LoadTestStatus := ⟨.succeeded, "", "", some 3, some 10⟩

/-- The previous status of that test: no times yet. -/
def prevNone : LoadTestStatus := ⟨.pending, "", "", none, none⟩

/-- Claim C6, counterexample: when the start and stop time appear in
the same reconcile, the previous status had no stop time and the
updated one has one, yet getRequeueTime returns the timeout (7), not
TTL minus runtime (100 - 7 = 93), because the start-time branch fires
first. -/
theorem c6_counterexample :
    getRequeueTime ⟨7, 100⟩ updBoth prevNone = some 7
    ∧ prevNone.stopTime = none
    ∧ updBoth.stopTime = some 10
    ∧ (some 7 : Option Int) ≠ some (100 - (10 - 3)) := by
  refine ⟨rfl, rfl, rfl, by decide⟩

/-- Claim C6, amended: getRequeueTime returns the timeout exactly when
the previous status had no start time and the updated one has one; it
returns TTL minus the observed runtime when additionally that first
transition did not fire, the previous status had no stop time and the
updated one has both a stop and a start time; and it returns zero when
neither transition fires. -/
theorem c6_amended (spec : LoadTestSpecTimes) (upd prev : LoadTestStatus) :
    (prev.startTime = none → upd.startTime ≠ none →
       getRequeueTime spec upd prev = some spec.timeoutSeconds)
    ∧ (∀ a b, ¬ (prev.startTime = none ∧ upd.startTime ≠ none) →
       prev.stopTime = none → upd.stopTime = some b → upd.startTime = some a →
       getRequeueTime spec upd prev = some (spec.ttlSeconds - (b - a)))
    ∧ (¬ (prev.startTime = none ∧ upd.startTime ≠ none) →
       ¬ (prev.stopTime = none ∧ upd.stopTime ≠ none) →
       getRequeueTime spec upd prev = some 0) := by
  refine ⟨?_, ?_, ?_⟩
  · intro h1 h2
    simp [getRequeueTime, h1, h2]
  · intro a b hn1 h1 h2 h3
    rw [getRequeueTime, if_neg hn1, if_pos ⟨h1, by simp [h2]⟩, h2, h3]
  · intro hn1 hn2
    rw [getRequeueTime, if_neg hn1, if_neg hn2]

/-- Claim C6 witness: a test that just gained a start time requeues
after its timeout. -/
theorem c6_amended_witness :
    getRequeueTime ⟨7, 100⟩ ⟨.running, "", "", some 3, none⟩ prevNone = some 7 :=
  (c6_amended ⟨7, 100⟩ ⟨.running, "", "", some 3, none⟩ prevNone).1 rfl (by decide)

/-! ## Claim C4: checkMissingPods -/

/-- A test component (client, server or driver): its defaulted name and
optional pool.  Only the name takes part in missing-pod matching. -/
structure Component where
  name : String
  pool : Option String
  deriving DecidableEq, Repr

/-- A LoadTest as consumed by checkMissingPods, after defaults: named
clients and servers and a (defaults-provided) driver. -/
structure LoadTest where
  name : String
  clients : List Component
  servers : List Component
  driver : Component
  deriving DecidableEq, Repr

/-- The missing components of a test, by role. -/
structure LoadTestMissing where
  driver : Option Component
  servers : List Component
  clients : List Component
  deriving DecidableEq, Repr

/-- The running state of the checkMissingPods scan: the required
client and server maps keyed by component name, and whether the driver
pod has been found. -/
structure MissingState where
  clientMap : List (String × Component)
  serverMap : List (String × Component)
  foundDriver : Bool
  deriving Repr

/-- The required-component map built from a component list: each
component stored under its name (a Go map write per component). -/
def buildRequiredMap (cs : List Component) : List (String × Component) :=
  cs.foldl (fun m c => mapInsert m c.name c) []

/-- One pod of the scan loop: pods with nil labels are skipped, pods of
other tests are skipped, and otherwise the pod discharges the matching
required entry of its role (or marks the driver found). -/
def missingPodStep (testName driverName : String) (st : MissingState) (pod : KPod) :
    MissingState :=
  match pod.labels with
  | none => st
  | some ls =>
      if lookupD ls LoadTestLabel "" ≠ testName then st
      else if lookupD ls RoleLabel "" = DriverRole then
        (if driverName = lookupD ls ComponentNameLabel "" then { st with foundDriver := true }
         else st)
      else if lookupD ls RoleLabel "" = ClientRole then
        (if (lookupA st.clientMap (lookupD ls ComponentNameLabel "")).isSome then
           { st with clientMap := mapDelete st.clientMap (lookupD ls ComponentNameLabel "") }
         else st)
      else if lookupD ls RoleLabel "" = ServerRole then
        (if (lookupA st.serverMap (lookupD ls ComponentNameLabel "")).isSome then
           { st with serverMap := mapDelete st.serverMap (lookupD ls ComponentNameLabel "") }
         else st)
      else st

/-- checkMissingPods: build the required maps from the spec, scan all
pods discharging matches, and return what is left (plus the driver when
no driver pod was found). -/
def checkMissingPods (test : LoadTest) (pods : List KPod) : LoadTestMissing :=
  { driver :=
      if (pods.foldl (missingPodStep test.name test.driver.name)
            ⟨buildRequiredMap test.clients, buildRequiredMap test.servers, false⟩).foundDriver
      then none else some test.driver,
    servers :=
      ((pods.foldl (missingPodStep test.name test.driver.name)
          ⟨buildRequiredMap test.clients, buildRequiredMap test.servers, false⟩).serverMap).map
        (fun p => p.2),
    clients :=
      ((pods.foldl (missingPodStep test.name test.driver.name)
          ⟨buildRequiredMap test.clients, buildRequiredMap test.servers, false⟩).clientMap).map
        (fun p => p.2) }

/-- A pod carries the three labels matching a given test, role and
component name (absent labels reading as the empty string, as in Go). -/
def podMatches (testName role compName : String) (pod : KPod) : Bool :=
  match pod.labels with
  | none => false
  | some ls =>
      decide (lookupD ls LoadTestLabel "" = testName)
      && decide (lookupD ls RoleLabel "" = role)
      && decide (lookupD ls ComponentNameLabel "" = compName)

theorem clientRole_ne_driverRole : ¬ (ClientRole = DriverRole) := by decide

theorem driverRole_ne_clientRole : ¬ (DriverRole = ClientRole) := by decide

theorem serverRole_ne_driverRole : ¬ (ServerRole = DriverRole) := by decide

theorem driverRole_ne_serverRole : ¬ (DriverRole = ServerRole) := by decide

theorem clientRole_ne_serverRole : ¬ (ClientRole = ServerRole) := by decide

theorem serverRole_ne_clientRole : ¬ (ServerRole = ClientRole) := by decide

theorem missingPodStep_clientMap (tn dn : String) (st : MissingState) (pod : KPod)
    (k : String) :
    lookupA (missingPodStep tn dn st pod).clientMap k
      = if podMatches tn ClientRole k pod = true then none else lookupA st.clientMap k := by
  unfold missingPodStep podMatches
  cases hls : pod.labels with
  | none => simp
  | some ls =>
      dsimp only
      by_cases h1 : lookupD ls LoadTestLabel "" = tn
      · by_cases h2 : lookupD ls RoleLabel "" = DriverRole
        · by_cases h4 : dn = lookupD ls ComponentNameLabel "" <;>
            simp [h1, h2, h4, driverRole_ne_clientRole]
        · by_cases h3 : lookupD ls RoleLabel "" = ClientRole
          · by_cases h4 : lookupD ls ComponentNameLabel "" = k
            · rw [h4]
              rcases h6 : lookupA st.clientMap k with _ | v
              · simp [h1, h2, h3, h4, h6, clientRole_ne_driverRole]
              · simp [h1, h2, h3, h4, h6, clientRole_ne_driverRole, lookupA_mapDelete]
            · have h4s : ¬ (k = lookupD ls ComponentNameLabel "") := fun h => h4 h.symm
              rcases h6 : lookupA st.clientMap (lookupD ls ComponentNameLabel "") with _ | v <;>
                simp [h1, h2, h3, h4, h4s, h6, clientRole_ne_driverRole, lookupA_mapDelete]
          · by_cases h4 : lookupD ls RoleLabel "" = ServerRole
            · rcases h6 : lookupA st.serverMap (lookupD ls ComponentNameLabel "") with _ | v <;>
                simp [h1, h2, h3, h4, h6, serverRole_ne_driverRole, serverRole_ne_clientRole]
            · simp [h1, h2, h3, h4]
      · simp [h1]

theorem missingPodStep_serverMap (tn dn : String) (st : MissingState) (pod : KPod)
    (k : String) :
    lookupA (missingPodStep tn dn st pod).serverMap k
      = if podMatches tn ServerRole k pod = true then none else lookupA st.serverMap k := by
  unfold missingPodStep podMatches
  cases hls : pod.labels with
  | none => simp
  | some ls =>
      dsimp only
      by_cases h1 : lookupD ls LoadTestLabel "" = tn
      · by_cases h2 : lookupD ls RoleLabel "" = DriverRole
        · by_cases h5 : dn = lookupD ls ComponentNameLabel "" <;>
            simp [h1, h2, h5, driverRole_ne_serverRole]
        · by_cases h3 : lookupD ls RoleLabel "" = ClientRole
          · rcases h6 : lookupA st.clientMap (lookupD ls ComponentNameLabel "") with _ | v <;>
              simp [h1, h2, h3, h6, clientRole_ne_serverRole, clientRole_ne_driverRole]
          · by_cases h4 : lookupD ls RoleLabel "" = ServerRole
            · by_cases h6 : lookupD ls ComponentNameLabel "" = k
              · rw [h6]
                rcases h7 : lookupA st.serverMap k with _ | v
                · simp [h1, h2, h3, h4, h6, h7, serverRole_ne_driverRole, serverRole_ne_clientRole]
                · simp [h1, h2, h3, h4, h6, h7, serverRole_ne_driverRole, serverRole_ne_clientRole,
                    lookupA_mapDelete]
              · have h6s : ¬ (k = lookupD ls ComponentNameLabel "") := fun h => h6 h.symm
                rcases h7 : lookupA st.serverMap (lookupD ls ComponentNameLabel "") with _ | v <;>
                  simp [h1, h2, h3, h4, h6, h6s, h7, serverRole_ne_driverRole,
                    serverRole_ne_clientRole, lookupA_mapDelete]
            · simp [h1, h2, h3, h4]
      · simp [h1]

theorem missingPodStep_foundDriver (tn dn : String) (st : MissingState) (pod : KPod) :
    (missingPodStep tn dn st pod).foundDriver
      = (st.foundDriver || podMatches tn DriverRole dn pod) := by
  unfold missingPodStep podMatches
  cases hls : pod.labels with
  | none => simp
  | some ls =>
      dsimp only
      by_cases h1 : lookupD ls LoadTestLabel "" = tn
      · by_cases h2 : lookupD ls RoleLabel "" = DriverRole
        · by_cases h3 : dn = lookupD ls ComponentNameLabel ""
          · simp [h1, h2, h3.symm]
          · have h3s : ¬ (lookupD ls ComponentNameLabel "" = dn) := fun h => h3 h.symm
            simp [h1, h2, h3, h3s]
        · by_cases h3 : lookupD ls RoleLabel "" = ClientRole
          · rcases h6 : lookupA st.clientMap (lookupD ls ComponentNameLabel "") with _ | v <;>
              simp [h1, h2, h3, h6, clientRole_ne_driverRole]
          · by_cases h4 : lookupD ls RoleLabel "" = ServerRole
            · rcases h6 : lookupA st.serverMap (lookupD ls ComponentNameLabel "") with _ | v <;>
                simp [h1, h2, h3, h4, h6, serverRole_ne_driverRole, serverRole_ne_clientRole]
            · simp [h1, h2, h3, h4]
      · simp [h1]

theorem foldl_missingPodStep_clientMap (tn dn : String) (pods : List KPod)
    (st : MissingState) (k : String) :
    lookupA (pods.foldl (missingPodStep tn dn) st).clientMap k
      = if pods.any (podMatches tn ClientRole k) then none else lookupA st.clientMap k := by
  induction pods generalizing st with
  | nil => simp
  | cons p pods ih =>
      rw [List.foldl_cons, ih, missingPodStep_clientMap]
      by_cases hp : podMatches tn ClientRole k p = true
      · by_cases hr : pods.any (podMatches tn ClientRole k) <;> simp [hp, hr]
      · by_cases hr : pods.any (podMatches tn ClientRole k) <;> simp [hp, hr]

theorem foldl_missingPodStep_serverMap (tn dn : String) (pods : List KPod)
    (st : MissingState) (k : String) :
    lookupA (pods.foldl (missingPodStep tn dn) st).serverMap k
      = if pods.any (podMatches tn ServerRole k) then none else lookupA st.serverMap k := by
  induction pods generalizing st with
  | nil => simp
  | cons p pods ih =>
      rw [List.foldl_cons, ih, missingPodStep_serverMap]
      by_cases hp : podMatches tn ServerRole k p = true
      · by_cases hr : pods.any (podMatches tn ServerRole k) <;> simp [hp, hr]
      · by_cases hr : pods.any (podMatches tn ServerRole k) <;> simp [hp, hr]

theorem foldl_missingPodStep_foundDriver (tn dn : String) (pods : List KPod)
    (st : MissingState) :
    (pods.foldl (missingPodStep tn dn) st).foundDriver
      = (st.foundDriver || pods.any (podMatches tn DriverRole dn)) := by
  induction pods generalizing st with
  | nil => simp
  | cons p pods ih =>
      rw [List.foldl_cons, ih, missingPodStep_foundDriver]
      simp [Bool.or_assoc]

/-- Well-formedness of a required-component map: keys are distinct and
each entry is keyed by its component's name. -/
def WFmap (m : List (String × Component)) : Prop :=
  (m.map Prod.fst).Nodup ∧ ∀ p ∈ m, p.1 = p.2.name

theorem foldl_insert_fresh : ∀ (cs : List Component) (m : List (String × Component)),
    (∀ c ∈ cs, lookupA m c.name = none) → (cs.map Component.name).Nodup →
    cs.foldl (fun m c => mapInsert m c.name c) m = m ++ cs.map (fun c => (c.name, c)) := by
  intro cs
  induction cs with
  | nil =>
      intro m _ _
      simp
  | cons c cs ih =>
      intro m hfresh hn
      rw [List.map_cons, List.nodup_cons] at hn
      obtain ⟨hnotin, hn2⟩ := hn
      have hcm : lookupA m c.name = none := hfresh c (List.mem_cons_self _ _)
      have hins : mapInsert m c.name c = m ++ [(c.name, c)] := by
        unfold mapInsert
        rw [hcm]
        simp
      rw [List.foldl_cons, hins, ih (m ++ [(c.name, c)]) ?fresh hn2]
      · simp
      case fresh =>
        intro c2 hc2
        rw [lookupA_append, hfresh c2 (List.mem_cons_of_mem _ hc2)]
        have hne : ¬ (c.name = c2.name) := by
          intro h
          exact hnotin (h ▸ List.mem_map_of_mem Component.name hc2)
        simp [lookupA, hne, Option.orElse]

theorem buildRequiredMap_eq (cs : List Component) (hn : (cs.map Component.name).Nodup) :
    buildRequiredMap cs = cs.map (fun c => (c.name, c)) := by
  unfold buildRequiredMap
  rw [foldl_insert_fresh cs [] (fun _ _ => rfl) hn]
  simp

theorem lookupA_map_pair (cs : List Component) (k : String) :
    lookupA (cs.map (fun c => (c.name, c))) k = cs.find? (fun c => decide (c.name = k)) := by
  induction cs with
  | nil => rfl
  | cons c cs ih =>
      simp only [List.map_cons, lookupA_cons]
      by_cases h : c.name = k
      · rw [if_pos h, List.find?_cons_of_pos _ (by simp [h])]
      · rw [if_neg h, List.find?_cons_of_neg _ (by simp [h]), ih]

theorem find?_name_unique (cs : List Component) (hn : (cs.map Component.name).Nodup)
    (k : String) (c : Component) :
    cs.find? (fun x => decide (x.name = k)) = some c ↔ (c ∈ cs ∧ c.name = k) := by
  induction cs with
  | nil => simp
  | cons x cs ih =>
      rw [List.map_cons, List.nodup_cons] at hn
      obtain ⟨hx, hn2⟩ := hn
      by_cases h : x.name = k
      · rw [List.find?_cons_of_pos _ (by simp [h])]
        constructor
        · intro h2
          injection h2 with h2
          subst h2
          exact ⟨List.mem_cons_self _ _, h⟩
        · rintro ⟨hmem, hck⟩
          rcases List.mem_cons.mp hmem with h3 | h3
          · rw [h3]
          · exact absurd (by rw [h, ← hck]; exact List.mem_map_of_mem Component.name h3) hx
      · rw [List.find?_cons_of_neg _ (by simp [h]), ih hn2]
        constructor
        · rintro ⟨hm, hk⟩
          exact ⟨List.mem_cons_of_mem _ hm, hk⟩
        · rintro ⟨hm, hk⟩
          rcases List.mem_cons.mp hm with h3 | h3
          · exact absurd (h3 ▸ hk) h
          · exact ⟨h3, hk⟩

theorem lookupA_eq_some_iff_mem (m : List (String × Component))
    (hk : (m.map Prod.fst).Nodup) (k : String) (v : Component) :
    lookupA m k = some v ↔ (k, v) ∈ m := by
  induction m with
  | nil => simp [lookupA]
  | cons p m ih =>
      obtain ⟨k1, v1⟩ := p
      rw [List.map_cons, List.nodup_cons] at hk
      obtain ⟨h1, h2⟩ := hk
      by_cases h : k1 = k
      · subst h
        rw [lookupA_cons, if_pos rfl]
        constructor
        · intro hv
          injection hv with hv
          subst hv
          exact List.mem_cons_self _ _
        · intro hm
          rcases List.mem_cons.mp hm with h3 | h3
          · injection h3 with _ h4
            rw [h4]
          · exact absurd (List.mem_map_of_mem Prod.fst h3) h1
      · rw [lookupA_cons, if_neg h, ih h2]
        constructor
        · intro hm
          exact List.mem_cons_of_mem _ hm
        · intro hm
          rcases List.mem_cons.mp hm with h3 | h3
          · exfalso
            apply h
            injection h3 with h4 _
            exact h4.symm
          · exact h3

theorem WFmap_mapDelete (m : List (String × Component)) (x : String) (h : WFmap m) :
    WFmap (mapDelete m x) := by
  obtain ⟨h1, h2⟩ := h
  constructor
  · exact h1.sublist ((List.filter_sublist m).map Prod.fst)
  · intro p hp
    exact h2 p (List.mem_of_mem_filter hp)

theorem missingPodStep_clientMap_cases (tn dn : String) (st : MissingState) (pod : KPod) :
    (missingPodStep tn dn st pod).clientMap = st.clientMap
    ∨ ∃ x, (missingPodStep tn dn st pod).clientMap = mapDelete st.clientMap x := by
  unfold missingPodStep
  cases pod.labels with
  | none => exact Or.inl rfl
  | some ls =>
      dsimp only
      split_ifs <;> first | exact Or.inl rfl | exact Or.inr ⟨_, rfl⟩

theorem missingPodStep_serverMap_cases (tn dn : String) (st : MissingState) (pod : KPod) :
    (missingPodStep tn dn st pod).serverMap = st.serverMap
    ∨ ∃ x, (missingPodStep tn dn st pod).serverMap = mapDelete st.serverMap x := by
  unfold missingPodStep
  cases pod.labels with
  | none => exact Or.inl rfl
  | some ls =>
      dsimp only
      split_ifs <;> first | exact Or.inl rfl | exact Or.inr ⟨_, rfl⟩

theorem foldl_missingPodStep_WF (tn dn : String) (pods : List KPod) (st : MissingState)
    (hc : WFmap st.clientMap) (hs : WFmap st.serverMap) :
    WFmap (pods.foldl (missingPodStep tn dn) st).clientMap
    ∧ WFmap (pods.foldl (missingPodStep tn dn) st).serverMap := by
  induction pods generalizing st with
  | nil => exact ⟨hc, hs⟩
  | cons p pods ih =>
      rw [List.foldl_cons]
      apply ih
      · rcases missingPodStep_clientMap_cases tn dn st p with h | ⟨x, h⟩
        · rw [h]; exact hc
        · rw [h]; exact WFmap_mapDelete _ _ hc
      · rcases missingPodStep_serverMap_cases tn dn st p with h | ⟨x, h⟩
        · rw [h]; exact hs
        · rw [h]; exact WFmap_mapDelete _ _ hs

theorem WFmap_values_mem (m : List (String × Component)) (h : WFmap m) (c : Component) :
    c ∈ m.map (fun p => p.2) ↔ (c.name, c) ∈ m := by
  obtain ⟨_, h2⟩ := h
  constructor
  · intro hcm
    rcases List.mem_map.mp hcm with ⟨p, hp, he⟩
    obtain ⟨p1, p2⟩ := p
    have hname : p1 = p2.name := h2 (p1, p2) hp
    simp only at he
    rw [he] at hname hp
    rw [hname] at hp
    exact hp
  · intro hcm
    exact List.mem_map.mpr ⟨(c.name, c), hcm, rfl⟩

/-- Claim C4: for a defaulted LoadTest (component names unique within
their role), checkMissingPods returns exactly the clients and servers
for which no pod in the list carries the three matching labels, and the
driver exactly when no pod carries the driver's three labels. -/
theorem c4_check_missing_pods (test : LoadTest) (pods : List KPod)
    (hc : (test.clients.map Component.name).Nodup)
    (hs : (test.servers.map Component.name).Nodup) :
    (∀ c, c ∈ (checkMissingPods test pods).clients ↔
        (c ∈ test.clients ∧ ¬ ∃ p ∈ pods, podMatches test.name ClientRole c.name p = true))
    ∧ (∀ c, c ∈ (checkMissingPods test pods).servers ↔
        (c ∈ test.servers ∧ ¬ ∃ p ∈ pods, podMatches test.name ServerRole c.name p = true))
    ∧ ((checkMissingPods test pods).driver
        = if pods.any (podMatches test.name DriverRole test.driver.name) then none
          else some test.driver) := by
  have hwf0c : WFmap (buildRequiredMap test.clients) := by
    rw [buildRequiredMap_eq test.clients hc]
    constructor
    · rw [List.map_map]
      exact hc
    · intro p hp
      rcases List.mem_map.mp hp with ⟨c, _, he⟩
      rw [← he]
  have hwf0s : WFmap (buildRequiredMap test.servers) := by
    rw [buildRequiredMap_eq test.servers hs]
    constructor
    · rw [List.map_map]
      exact hs
    · intro p hp
      rcases List.mem_map.mp hp with ⟨c, _, he⟩
      rw [← he]
  have hwf := foldl_missingPodStep_WF test.name test.driver.name pods
    ⟨buildRequiredMap test.clients, buildRequiredMap test.servers, false⟩ hwf0c hwf0s
  refine ⟨?_, ?_, ?_⟩
  · intro c
    rw [checkMissingPods]
    rw [WFmap_values_mem _ hwf.1 c,
      ← lookupA_eq_some_iff_mem _ hwf.1.1 c.name c,
      foldl_missingPodStep_clientMap]
    by_cases hany : pods.any (podMatches test.name ClientRole c.name)
    · rw [if_pos hany]
      rw [List.any_eq_true] at hany
      constructor
      · intro h
        exact Option.noConfusion h
      · rintro ⟨_, hno⟩
        exact absurd (by simpa using hany) hno
    · rw [if_neg hany]
      have hnot : ¬ ∃ p ∈ pods, podMatches test.name ClientRole c.name p = true := by
        rw [← List.any_eq_true]
        simpa using hany
      rw [buildRequiredMap_eq test.clients hc, lookupA_map_pair,
        find?_name_unique test.clients hc c.name c]
      simp [hnot]
  · intro c
    rw [checkMissingPods]
    rw [WFmap_values_mem _ hwf.2 c,
      ← lookupA_eq_some_iff_mem _ hwf.2.1 c.name c,
      foldl_missingPodStep_serverMap]
    by_cases hany : pods.any (podMatches test.name ServerRole c.name)
    · rw [if_pos hany]
      rw [List.any_eq_true] at hany
      constructor
      · intro h
        exact Option.noConfusion h
      · rintro ⟨_, hno⟩
        exact absurd (by simpa using hany) hno
    · rw [if_neg hany]
      have hnot : ¬ ∃ p ∈ pods, podMatches test.name ServerRole c.name p = true := by
        rw [← List.any_eq_true]
        simpa using hany
      rw [buildRequiredMap_eq test.servers hs, lookupA_map_pair,
        find?_name_unique test.servers hs c.name c]
      simp [hnot]
  · rw [checkMissingPods, foldl_missingPodStep_foundDriver]
    simp

/-- A LoadTest with one client, one server and a driver. -/
def testW : LoadTest := ⟨"t", [⟨"c1", none⟩], [⟨"s1", none⟩], ⟨"d1", none⟩⟩

/-- A pod of test t holding the client c1 labels. -/
def podW : KPod :=
  ⟨some [(LoadTestLabel, "t"), (RoleLabel, ClientRole), (ComponentNameLabel, "c1")],
    PodPhase.running⟩

/-- Claim C4 witness: the membership characterisation applied to the
concrete one-client test against its own client pod. -/
theorem c4_witness :
    ((⟨"c1", none⟩ : Component) ∈ (checkMissingPods testW [podW]).clients ↔
      ((⟨"c1", none⟩ : Component) ∈ testW.clients ∧
        ¬ ∃ p ∈ [podW], podMatches testW.name ClientRole "c1" p = true)) :=
  (c4_check_missing_pods testW [podW] (by decide) (by decide)).1 ⟨"c1", none⟩

/-! ## Claim C8: the runner's per-test task (runTest) -/

/-- Modelled from the spec and usage: the string form of a state as it
appears in status lines (the state constants are referenced by the
source but defined outside it; the terminal comparison in runTest is
against the literal "Succeeded"). -/
def stateString : LoadTestState → String
  | .unknown => "Unknown"
  | .pending => "Pending"
  | .provisioning => "Provisioning"
  | .running => "Running"
  | .succeeded => "Succeeded"
  | .errored => "Errored"

/-- statusString: state, then the trimmed reason and message when
non-empty, joined by a semicolon and space. -/
def statusString (st : LoadTestStatus) : String :=
  String.intercalate "; "
    ([stateString st.state]
      ++ (if st.reason.trim ≠ "" then [st.reason.trim] else [])
      ++ (if st.message.trim ≠ "" then [st.message.trim] else []))

/-- The result of one create or poll RPC: a transport failure, or the
load test fetched with its status. -/
inductive RpcResult where
  | failure
  | success (status : LoadTestStatus)
  deriving DecidableEq, Repr

/-- The externally visible actions of the runner's per-test task. -/
inductive RunnerAct where
  | logInfo
  | logError
  | waitInterval
  | signalDone
  deriving DecidableEq, Repr

/-- The poll loop of runTest over a finite trace of poll responses.
State: the retries counter and the status string of the previous
successful poll.  A failing poll within budget logs, waits one interval
and retries; past budget it logs an error, signals done and abandons
the test.  A successful poll resets retries, and branches: terminal
states log and signal done; Running logs and waits one interval;
anything else waits two intervals (logging only on a changed status
line). -/
def runTestPoll (budget : Nat) : Nat → String → List RpcResult → List RunnerAct
  | _, _, [] => []
  | retries, s, RpcResult.failure :: rest =>
      if retries < budget then
        .logInfo :: .waitInterval :: runTestPoll budget (retries + 1) s rest
      else [.logError, .signalDone]
  | _, s, RpcResult.success st :: rest =>
      if st.state.IsTerminated then
        (if statusString st ≠ "Succeeded" then [.logError, .signalDone]
         else [.logInfo, .signalDone])
      else if st.state = LoadTestState.running then
        .logInfo :: .waitInterval :: runTestPoll budget 0 (statusString st) rest
      else
        (if s ≠ statusString st then [.logInfo] else [])
          ++ .waitInterval :: .waitInterval :: runTestPoll budget 0 (statusString st) rest

/-- The create loop of runTest over a finite trace of create responses:
a failure within budget logs, waits one interval and retries; past
budget it logs an error, signals done and abandons; on success it logs
and enters the poll loop with a reset retries counter and an empty
previous status string. -/
def runTestCreate (budget : Nat) (polls : List RpcResult) :
    Nat → List RpcResult → List RunnerAct
  | _, [] => []
  | retries, RpcResult.failure :: rest =>
      if retries < budget then
        .logInfo :: .waitInterval :: runTestCreate budget polls (retries + 1) rest
      else [.logError, .signalDone]
  | _, RpcResult.success _ :: _ =>
      .logInfo :: runTestPoll budget 0 "" polls

/-- runTest: the create loop from a zero retries counter, then the poll
loop. -/
def runTest (budget : Nat) (creates polls : List RpcResult) : List RunnerAct :=
  runTestCreate budget polls 0 creates

/-- Claim C8: per-step behaviour of the runner task.  Failing create or
poll RPCs within the retry budget wait one interval and increment the
counter; once the budget is exhausted the task logs an error, signals
done and stops.  A successful poll in a terminal state logs and signals
done; in the Running state it logs and waits one interval; in any other
state it waits two intervals.  A successful create logs and enters the
poll loop. -/
theorem c8_run_test_task (budget retries : Nat) (s : String) (st : LoadTestStatus)
    (polls rest : List RpcResult) :
    (retries < budget →
       runTestPoll budget retries s (.failure :: rest)
         = .logInfo :: .waitInterval :: runTestPoll budget (retries + 1) s rest)
    ∧ (¬ retries < budget →
       runTestPoll budget retries s (.failure :: rest) = [.logError, .signalDone])
    ∧ (st.state.IsTerminated = true →
       runTestPoll budget retries s (.success st :: rest)
         = (if statusString st ≠ "Succeeded" then [.logError, .signalDone]
            else [.logInfo, .signalDone]))
    ∧ (st.state = LoadTestState.running →
       runTestPoll budget retries s (.success st :: rest)
         = .logInfo :: .waitInterval :: runTestPoll budget 0 (statusString st) rest)
    ∧ (st.state.IsTerminated = false → st.state ≠ LoadTestState.running →
       runTestPoll budget retries s (.success st :: rest)
         = (if s ≠ statusString st then [.logInfo] else [])
             ++ .waitInterval :: .waitInterval :: runTestPoll budget 0 (statusString st) rest)
    ∧ (retries < budget →
       runTestCreate budget polls retries (.failure :: rest)
         = .logInfo :: .waitInterval :: runTestCreate budget polls (retries + 1) rest)
    ∧ (¬ retries < budget →
       runTestCreate budget polls retries (.failure :: rest) = [.logError, .signalDone])
    ∧ (runTestCreate budget polls retries (.success st :: rest)
         = .logInfo :: runTestPoll budget 0 "" polls) := by
  refine ⟨?_, ?_, ?_, ?_, ?_, ?_, ?_, ?_⟩
  · intro h
    simp [runTestPoll, h]
  · intro h
    simp [runTestPoll, h]
  · intro h
    simp [runTestPoll, h]
  · intro h
    simp [runTestPoll, h, LoadTestState.IsTerminated]
  · intro h1 h2
    simp [runTestPoll, h1, h2]
  · intro h
    simp [runTestCreate, h]
  · intro h
    simp [runTestCreate, h]
  · simp [runTestCreate]

/-- Claim C8 witness: a poll observing a running test emits one status
line and waits a single interval before the next poll. -/
theorem c8_witness :
    runTestPoll 2 0 "" [.success ⟨.running, "", "", some 1, none⟩]
      = [.logInfo, .waitInterval] := by
  have h := (c8_run_test_task 2 0 "" ⟨.running, "", "", some 1, none⟩ [] []).2.2.2.1 rfl
  rw [h]
  rfl

/-! ## Claim C9: the runner binary's exit code -/

/-- The exit behaviour of the runner binary (cmd/runner/main.go): the
only non-zero exits are the log.Fatalf calls on input decoding,
concurrency validation, report-file creation and report writing.  The
per-test terminal states are observed only through loggers and never
reach the exit path, so the function ignores them. -/
def mainExitCode (decodeOk validateOk : Bool) (finalStates : List LoadTestState)
    (reportRequested createFileOk writeReportOk : Bool) : Nat :=
  if !decodeOk then 1
  else if !validateOk then 1
  else if reportRequested && !createFileOk then 1
  else if reportRequested && !writeReportOk then 1
  else 0

/-- Claim C9, counterexample: a run whose only test errored, with no
report requested and all operational steps succeeding, still exits 0 —
the exit code is not 0-iff-all-succeeded. -/
theorem c9_counterexample :
    mainExitCode true true [LoadTestState.errored] false true true = 0
    ∧ ([LoadTestState.errored].all (fun st => decide (st = LoadTestState.succeeded))) = false :=
  ⟨rfl, rfl⟩

/-- Claim C9, amended: the runner exits 0 exactly when decoding and
validation succeed and, when a report is requested, its file creation
and writing succeed; the terminal states of the submitted tests do not
influence the exit code. -/
theorem c9_amended (decodeOk validateOk : Bool) (finalStates : List LoadTestState)
    (reportRequested createFileOk writeReportOk : Bool) :
    mainExitCode decodeOk validateOk finalStates reportRequested createFileOk writeReportOk
      = if decodeOk && validateOk && (!reportRequested || (createFileOk && writeReportOk))
        then 0 else 1 := by
  cases decodeOk <;> cases validateOk <;> cases reportRequested <;>
    cases createFileOk <;> cases writeReportOk <;> rfl

end GrpcTestInfra
